import Mathlib

/-
  Shallow embedding of the ride-pooling matching engine
  (findBestMatch / tryInsertIntoTrip / evaluateInsertion / findAvailableVehicle
  and their helpers from the matching-service module).

  Modelling conventions:
  * ISO date-time strings are modelled as `Int` milliseconds since epoch
    (the source parses every such string with `new Date(...)` and only ever
    compares instants or adds minute/second offsets).
  * `addMinutes`/`addSeconds` become integer arithmetic on milliseconds.
  * `differenceInMinutes` divides a millisecond difference by 60000 in
    JavaScript double arithmetic; for the integer millisecond values the
    engine produces, that float comparison agrees with exact rational
    arithmetic, so it is modelled with `Rat`.
  * Route durations and passenger counts are natural numbers.
  * Coordinates are opaque pairs (the engine never computes with them, it
    only passes them to the routing provider and stores them).
  * The routing provider (`getRoute`) is an injected deterministic stub
    `RouteStub`; `getRoute(a, b)` with two arguments is a call with an
    empty waypoint list.
  * The global stop-id counter of the id-generator module
    (`generateStopId`: pre-increment, then "STP-" + zero-padded counter)
    is threaded explicitly as a `Nat`.
  * Logging is a fire-and-forget callback that never influences data or
    control flow; it is omitted.
-/

namespace Tadia

structure Coordinates where
  lat : Int
  lng : Int
deriving DecidableEq, Repr

inductive StopType where
  | pickup
  | dropoff
deriving DecidableEq, Repr

inductive TripStatus where
  | planned
  | in_progress
  | completed
  | cancelled
deriving DecidableEq, Repr

inductive BookingStatus where
  | confirmed
  | cancelled
deriving DecidableEq, Repr

structure TripStop where
  id : String
  location : Coordinates
  address : String
  type : StopType
  bookingId : String
  scheduledTime : Int
  sequence : Int
deriving DecidableEq, Repr

structure Trip where
  id : String
  vehicleId : String
  status : TripStatus
  stops : List TripStop
  routePolyline : String
  departureTime : Int
  estimatedDuration : Nat
  createdAt : Int
deriving DecidableEq, Repr

structure Booking where
  id : String
  bookingNumber : String
  tripId : Option String
  pickupLocation : Coordinates
  pickupAddress : String
  dropoffLocation : Coordinates
  dropoffAddress : String
  requestedPickupTime : Int
  estimatedPickupTime : Int
  estimatedDropoffTime : Int
  passengerCount : Nat
  status : BookingStatus
  createdAt : Int
deriving DecidableEq, Repr

structure Vehicle where
  id : String
  name : String
  color : String
  capacity : Nat
  currentLocation : Option Coordinates
deriving DecidableEq, Repr

structure AppConfig where
  vehicleCount : Nat
  seatsPerVehicle : Nat
  maxDetourMinutes : Nat
  minutesPerStop : Nat
  bufferMinutes : Nat
  googleMapsApiKey : String
deriving DecidableEq, Repr

/-- The read-only snapshot handed to the engine (`debugLog` is omitted:
the engine never reads or writes it; the config travels separately). -/
structure AppState where
  vehicles : List Vehicle
  bookings : List Booking
  trips : List Trip
deriving DecidableEq, Repr

structure BookingRequest where
  pickupLocation : Coordinates
  pickupAddress : String
  dropoffLocation : Coordinates
  dropoffAddress : String
  requestedPickupTime : Int
  passengerCount : Nat
deriving DecidableEq, Repr

structure RouteLeg where
  duration : Nat
  distance : Nat
  startLocation : Coordinates
  endLocation : Coordinates
deriving DecidableEq, Repr

structure RouteResult where
  duration : Nat
  distance : Nat
  polyline : String
  legs : List RouteLeg
deriving DecidableEq, Repr

inductive MatchResult where
  | pool (tripId : String) (vehicleId : String) (estimatedPickupTime : Int)
      (estimatedDropoffTime : Int) (estimatedDuration : Nat)
      (routePolyline : String) (newStops : List TripStop)
  | new (vehicleId : String) (estimatedPickupTime : Int)
      (estimatedDropoffTime : Int) (estimatedDuration : Nat)
      (routePolyline : String) (newStops : List TripStop)
  | rejected (reason : String) (earliestAvailableTime : Option Int)
deriving DecidableEq, Repr

structure PoolCandidate where
  trip : Trip
  newStops : List TripStop
  estimatedPickupTime : Int
  estimatedDropoffTime : Int
  estimatedDuration : Nat
  score : Nat
  routePolyline : String
deriving DecidableEq, Repr

/-- Deterministic routing provider: origin, destination, ordered waypoints. -/
def RouteStub : Type := Coordinates → Coordinates → List Coordinates → Option RouteResult

/-
  `differenceInMinutes(l, e)` of the time utilities returns the real
  number (l − e) / 60000. The engine only ever COMPARES that value with
  an integer number of minutes (max-detour, buffer, the 15-minute
  proximity bound); `(l − e) / 60000 ⋈ c` over the reals is equivalent to
  `l − e ⋈ c * 60000` over the integers, and the JavaScript float
  quotient cannot flip such a comparison (an inexact quotient of integer
  millisecond values lies at least 1/60000 away from any integer, far
  beyond double rounding error). Every use below is therefore modelled
  as the equivalent integer millisecond comparison.
-/

/-- An integer-minute bound converted to milliseconds. -/
def minutesMs (m : Nat) : Int := (m : Int) * 60000

/-- `String.padStart(4, "0")` of the decimal representation. -/
def pad4 (s : String) : String :=
  if 4 ≤ s.length then s else String.join (List.replicate (4 - s.length) "0") ++ s

/-- `generateStopId` body for counter value `n` (after the pre-increment). -/
def mkStopId (n : Nat) : String := "STP-" ++ pad4 (toString n)

/-- Stable insertion into a `le`-sorted list; ties keep the incoming element
in front of later, equal elements — the same tie behaviour as the stable
`Array.prototype.sort`. -/
def insertSorted (le : α → α → Bool) (x : α) : List α → List α
  | [] => [x]
  | y :: ys => if le x y then x :: y :: ys else y :: insertSorted le x ys

/-- Stable sort (models the stable JavaScript `sort` with a comparator). -/
def sortWith (le : α → α → Bool) : List α → List α
  | [] => []
  | x :: xs => insertSorted le x (sortWith le xs)

def stopSeqLe (a b : TripStop) : Bool := decide (a.sequence ≤ b.sequence)

def tripDepLe (a b : Trip) : Bool := decide (a.departureTime ≤ b.departureTime)

def candScoreGe (a b : PoolCandidate) : Bool := decide (b.score ≤ a.score)

/-- Last stop time of a trip, or its departure when it has no stops
(the source reads the raw `trip.stops[trip.stops.length - 1]`). -/
def tripEndOf (t : Trip) : Int :=
  match t.stops.getLast? with
  | some s => s.scheduledTime
  | none => t.departureTime

/-- The confirmed bookings attached to a given trip. -/
def tripBookingsOf (st : AppState) (tid : String) : List Booking :=
  st.bookings.filter
    (fun b => decide (b.tripId = some tid ∧ b.status = BookingStatus.confirmed))

/-- `tripBookings.reduce((sum, b) => sum + b.passengerCount, 0)`. -/
def paxSum (tb : List Booking) : Nat :=
  tb.foldl (fun s b => s + b.passengerCount) 0

/-- The fresh pickup stop built at the top of `evaluateInsertion`
(`generateStopId` pre-increments, so its id uses counter value `ctr + 1`). -/
def newPickupStopOf (req : BookingRequest) (p : Nat) (ctr : Nat) : TripStop :=
  { id := mkStopId (ctr + 1)
    location := req.pickupLocation
    address := req.pickupAddress
    type := StopType.pickup
    bookingId := ""
    scheduledTime := req.requestedPickupTime
    sequence := (p : Int) }

/-- The fresh dropoff stop (second id drawn, counter value `ctr + 2`);
its `scheduledTime` placeholder (the empty string in the source) is
modelled as 0 — it is overwritten before it is ever read. -/
def newDropoffStopOf (req : BookingRequest) (d : Nat) (ctr : Nat) : TripStop :=
  { id := mkStopId (ctr + 2)
    location := req.dropoffLocation
    address := req.dropoffAddress
    type := StopType.dropoff
    bookingId := ""
    scheduledTime := 0
    sequence := (d : Int) }

/-- The rebuild loop of `evaluateInsertion`, translated with relative
indices: at loop index `i` the remaining counters are `p − i` and `d − i`.
Each iteration pushes the pickup when `i = pickupPos`, then the dropoff
when `i = dropoffPos`, then the existing stop `i` when `i < length`; after
the loop the dropoff is appended when `dropoffPos = length + 1`. -/
def spliceGo (pu du : TripStop) : List TripStop → Int → Int → List TripStop
  | [], p, d =>
    (if p = 0 then [pu] else []) ++ (if d = 0 then [du] else []) ++
      (if d = 1 then [du] else [])
  | s :: rest, p, d =>
    (if p = 0 then [pu] else []) ++ (if d = 0 then [du] else []) ++
      s :: spliceGo pu du rest (p - 1) (d - 1)

/-- Assign fresh sequence numbers 0..n−1 (the `sequence: seq++` writes). -/
def resequence (l : List TripStop) : List TripStop :=
  l.enum.map (fun pr => { pr.2 with sequence := (pr.1 : Int) })

/-- The full `rebuiltStops` list of `evaluateInsertion`. -/
def rebuiltStopsOf (existing : List TripStop) (req : BookingRequest)
    (p d : Nat) (ctr : Nat) : List TripStop :=
  resequence
    (spliceGo (newPickupStopOf req p ctr) (newDropoffStopOf req d ctr)
      existing (p : Int) (d : Int))

/-- Origin, destination and ordered waypoints of the full-route request
(`routePoints[0]`, last point, `slice(1, -1)`); `none` when there are
fewer than two points. -/
def routeQueryOf (stops : List TripStop) :
    Option (Coordinates × Coordinates × List Coordinates) :=
  match stops.map (fun s => s.location) with
  | [] => none
  | [_] => none
  | o :: pt :: rest => some (o, List.getLastD rest pt, (pt :: rest).dropLast)

/-- Millisecond duration of leg `i`, 0 when absent (`legs[i]` falsy). -/
def legDurMs (legs : List RouteLeg) (i : Nat) : Int :=
  match legs.get? i with
  | some leg => (leg.duration : Int) * 1000
  | none => 0

/-- The scheduling loop: for stop `i` (global index carried in the first
argument), add leg `i − 1` when present, then the per-stop service time,
and record the clock as the stop's new scheduled time. -/
def schedGo (legs : List RouteLeg) (perStop : Nat) :
    Nat → Int → List TripStop → List TripStop
  | _, _, [] => []
  | i, t, s :: rest =>
    let t1 := if 0 < i then t + legDurMs legs (i - 1) else t
    let t2 := t1 + (perStop : Int) * 60000
    { s with scheduledTime := t2 } :: schedGo legs perStop (i + 1) t2 rest

/-- `updatedStops`: rebuilt stops with recomputed scheduled times,
starting the clock at the trip's departure time. -/
def scheduleStops (departure : Int) (perStop : Nat) (legs : List RouteLeg)
    (stops : List TripStop) : List TripStop :=
  schedGo legs perStop 0 departure stops

/-- Passenger count attributed to a stop: its booking's confirmed count
when the booking id resolves, else the request's count when the stop is
the freshly inserted one (matched by id), else 0. -/
def stopCnt (tb : List Booking) (newId : String) (reqCount : Nat)
    (s : TripStop) : Nat :=
  match tb.find? (fun b => decide (b.id = s.bookingId)) with
  | some b => b.passengerCount
  | none => if s.id = newId then reqCount else 0

/-- The capacity walk of `evaluateInsertion`: accumulate on-board
passengers, failing as soon as a pickup pushes the total above the seat
count. -/
def capacityGo (tb : List Booking) (puId duId : String) (reqCount : Nat)
    (seats : Nat) : Int → List TripStop → Bool
  | _, [] => true
  | onboard, s :: rest =>
    match s.type with
    | StopType.pickup =>
      let ob := onboard + (stopCnt tb puId reqCount s : Int)
      if (seats : Int) < ob then false
      else capacityGo tb puId duId reqCount seats ob rest
    | StopType.dropoff =>
      capacityGo tb puId duId reqCount seats
        (onboard - (stopCnt tb duId reqCount s : Int)) rest

def capacityCheck (tb : List Booking) (puId duId : String) (reqCount : Nat)
    (seats : Nat) (stops : List TripStop) : Bool :=
  capacityGo tb puId duId reqCount seats 0 stops

/-- Signed on-board delta of one stop under the claim/code counting rule. -/
def stopDelta (tb : List Booking) (puId duId : String) (reqCount : Nat)
    (s : TripStop) : Int :=
  match s.type with
  | StopType.pickup => (stopCnt tb puId reqCount s : Int)
  | StopType.dropoff => -(stopCnt tb duId reqCount s : Int)

/-- Running on-board total after a list of stops, starting from `ob`. -/
def runningOnboard (tb : List Booking) (puId duId : String) (reqCount : Nat)
    (ob : Int) (stops : List TripStop) : Int :=
  stops.foldl (fun acc s => acc + stopDelta tb puId duId reqCount s) ob

/-- Claim C1's safety walk: after every prefix of the stop list, the
on-board total is within the seat count. -/
def capacityPrefixOk (tb : List Booking) (puId duId : String)
    (reqCount : Nat) (seats : Nat) (stops : List TripStop) : Prop :=
  ∀ k : Nat, runningOnboard tb puId duId reqCount 0 (stops.take k) ≤ (seats : Int)

/-- The existing-passenger detour loop: every confirmed booking whose
dropoff stop is found in the updated list must keep its recomputed
dropoff within `maxDetourMinutes` of its promised one. -/
def existingDetourOk (tb : List Booking) (stops : List TripStop)
    (maxDetour : Nat) : Bool :=
  tb.all (fun b =>
    match stops.find?
        (fun s => decide (s.bookingId = b.id ∧ s.type = StopType.dropoff)) with
    | some s =>
      decide (s.scheduledTime - b.estimatedDropoffTime ≤ minutesMs maxDetour)
    | none => true)

/-- The new-passenger dropoff guarantee: when the private direct route is
available, reject when the recomputed dropoff trails pickup + direct
duration by more than `maxDetourMinutes`; when the direct route FAILS the
check is skipped (`if (directRoute) { ... }`). -/
def newPaxRejects (req : BookingRequest) (estP estD : Int) (maxDetour : Nat)
    (stub : RouteStub) : Bool :=
  match stub req.pickupLocation req.dropoffLocation [] with
  | some direct =>
    decide (minutesMs maxDetour <
      estD - (estP + (direct.duration : Int) * 1000))
  | none => false

/-- Proximity check: computed pickup within 15 minutes of the request. -/
def proximityRejects (req : BookingRequest) (estP : Int) : Bool :=
  decide (minutesMs 15 < ((estP - req.requestedPickupTime).natAbs : Int))

/-- `evaluateInsertion` minus the id-counter bookkeeping: both fresh stop
ids are drawn from `ctr` at the top, after which the splice, route,
schedule, capacity, detour and proximity checks run in source order.
(The source also builds a first `newStops` array in a preliminary loop;
that array is never read afterwards — the `rebuiltStops` loop below it is
the one whose result flows on — so the dead loop is not modelled.) -/
def evalCore (trip : Trip) (existing : List TripStop) (tb : List Booking)
    (req : BookingRequest) (p d : Nat) (pax : Nat) (cfg : AppConfig)
    (stub : RouteStub) (ctr : Nat) : Option PoolCandidate :=
  let pu := newPickupStopOf req p ctr
  let du := newDropoffStopOf req d ctr
  let rb := rebuiltStopsOf existing req p d ctr
  match routeQueryOf rb with
  | none => none
  | some (o, dest, wps) =>
    match stub o dest wps with
    | none => none
    | some route =>
      let updated := scheduleStops trip.departureTime cfg.minutesPerStop route.legs rb
      match updated.find? (fun s => decide (s.id = pu.id)),
          updated.find? (fun s => decide (s.id = du.id)) with
      | some pus, some dus =>
        if capacityCheck tb pu.id du.id req.passengerCount cfg.seatsPerVehicle updated then
          if existingDetourOk tb updated cfg.maxDetourMinutes then
            if newPaxRejects req pus.scheduledTime dus.scheduledTime
                cfg.maxDetourMinutes stub then none
            else if proximityRejects req pus.scheduledTime then none
            else some
              { trip := trip
                newStops := updated
                estimatedPickupTime := pus.scheduledTime
                estimatedDropoffTime := dus.scheduledTime
                estimatedDuration := route.duration
                score := pax
                routePolyline := route.polyline }
          else none
        else none
      | _, _ => none

/-- `evaluateInsertion`: the two `generateStopId()` calls advance the
global counter by exactly 2 on every evaluation, success or failure. -/
def evaluateInsertion (trip : Trip) (existing : List TripStop)
    (tb : List Booking) (req : BookingRequest) (p d : Nat) (pax : Nat)
    (cfg : AppConfig) (stub : RouteStub) (ctr : Nat) :
    Option PoolCandidate × Nat :=
  (evalCore trip existing tb req p d pax cfg stub ctr, ctr + 2)

/-- The position pairs scanned by `tryInsertIntoTrip`, in loop order:
`pickupPos` 0..len, and for each, `dropoffPos` pickupPos+1..len+1. -/
def lexPairs (len : Nat) : List (Nat × Nat) :=
  (List.range (len + 1)).flatMap
    (fun p => (List.range (len + 1 - p)).map (fun k => (p, p + 1 + k)))

/-- First-fit scan over position pairs, threading the id counter through
every (also failing) evaluation. -/
def scanPairs (trip : Trip) (existing : List TripStop) (tb : List Booking)
    (req : BookingRequest) (pax : Nat) (cfg : AppConfig) (stub : RouteStub) :
    List (Nat × Nat) → Nat → Option PoolCandidate × Nat
  | [], c => (none, c)
  | pd :: rest, c =>
    match evaluateInsertion trip existing tb req pd.1 pd.2 pax cfg stub c with
    | (some cand, c1) => (some cand, c1)
    | (none, c1) => scanPairs trip existing tb req pax cfg stub rest c1

/-- `tryInsertIntoTrip`: sort the trip's stops by sequence (on a copy),
collect the trip's confirmed bookings and their passenger total, then
return the first successful insertion in the fixed scan order. -/
def tryInsertIntoTrip (trip : Trip) (req : BookingRequest) (st : AppState)
    (cfg : AppConfig) (stub : RouteStub) (ctr : Nat) :
    Option PoolCandidate × Nat :=
  let existing := sortWith stopSeqLe trip.stops
  let tb := tripBookingsOf st trip.id
  scanPairs trip existing tb req (paxSum tb) cfg stub
    (lexPairs existing.length) ctr

/-- `findPriorTrip`: scan the departure-sorted trips, keeping the latest
one ending at or before the requested time, and BREAK at the first trip
ending after it. -/
def findPriorTrip : List Trip → Int → Option Trip
  | [], _ => none
  | t :: rest, rt =>
    if tripEndOf t ≤ rt then
      match findPriorTrip rest rt with
      | some t2 => some t2
      | none => some t
    else none

/-- `findNextTrip`: first trip departing strictly after the given time. -/
def findNextTrip : List Trip → Int → Option Trip
  | [], _ => none
  | t :: rest, afterT =>
    if afterT < t.departureTime then some t else findNextTrip rest afterT

/-- `findOverlappingTrip`: first trip with start < newEnd and end > newStart. -/
def findOverlappingTrip (sorted : List Trip) (newStart newEnd : Int) :
    Option Trip :=
  sorted.find?
    (fun t => decide (t.departureTime < newEnd ∧ newStart < tripEndOf t))

/-- Active trips of one vehicle, sorted by departure ascending. -/
def vehicleTripsOf (trips : List Trip) (vid : String) : List Trip :=
  sortWith tripDepLe
    (trips.filter (fun t => decide (t.vehicleId = vid ∧
      t.status ≠ TripStatus.completed ∧ t.status ≠ TripStatus.cancelled)))

/-- Prior-trip feasibility: can the vehicle travel from its prior trip's
last stop to the new pickup and arrive at least `buffer` minutes early?
Returns (canArriveInTime, vehicleArrivalTime as tracked by the source):
on a miss the tracked time is arrival + buffer; on a routing failure the
vehicle is infeasible with no estimate; with no prior trip (or a prior
trip without stops) the check passes with no estimate. -/
def priorCheck (requestedTime : Int) (pickupLocation : Coordinates)
    (cfg : AppConfig) (stub : RouteStub) (prior : Option Trip) :
    Bool × Option Int :=
  match prior with
  | some pt =>
    match pt.stops.getLast? with
    | some ls =>
      match stub ls.location pickupLocation [] with
      | some r =>
        let arr := ls.scheduledTime + (r.duration : Int) * 1000
        if requestedTime - (cfg.bufferMinutes : Int) * 60000 < arr then
          (false, some (arr + (cfg.bufferMinutes : Int) * 60000))
        else (true, some arr)
      | none => (false, none)
    | none => (true, none)
  | none => (true, none)

/-- Next-trip feasibility: only when the vehicle is still feasible and the
next trip has a FIRST STOP does the static buffer-gap check run; a next
trip with an empty stop list skips the check entirely. -/
def nextCheck (newTripEnd : Int) (cfg : AppConfig) (canArrive : Bool)
    (next : Option Trip) : Bool :=
  match next with
  | some nt =>
    if canArrive then
      match nt.stops.head? with
      | some _ =>
        if nt.departureTime - newTripEnd < minutesMs cfg.bufferMinutes then
          false
        else canArrive
      | none => canArrive
    else canArrive
  | none => canArrive

/-- One iteration of the vehicle loop: (does the vehicle pass, the
earliest-availability estimate it contributes). A busy vehicle
contributes overlapping-trip end + travel + buffer (when computable); an
idle-path vehicle contributes its prior-trip arrival time as tracked by
`priorCheck` — WITHOUT buffer when the arrival itself was in time. -/
def checkVehicle (requestedTime newTripEnd : Int)
    (pickupLocation : Coordinates) (trips : List Trip) (cfg : AppConfig)
    (stub : RouteStub) (v : Vehicle) : Bool × Option Int :=
  let vts := vehicleTripsOf trips v.id
  match findOverlappingTrip vts requestedTime newTripEnd with
  | some ot =>
    let est :=
      match ot.stops.getLast? with
      | some ls =>
        match stub ls.location pickupLocation [] with
        | some r =>
          some (tripEndOf ot + (r.duration : Int) * 1000 +
            (cfg.bufferMinutes : Int) * 60000)
        | none => none
      | none => none
    (false, est)
  | none =>
    let pc := priorCheck requestedTime pickupLocation cfg stub
      (findPriorTrip vts requestedTime)
    (nextCheck newTripEnd cfg pc.1 (findNextTrip vts newTripEnd), pc.2)

/-- `if (!earliest || a < earliest) earliest = a`. -/
def minUpdate (e : Option Int) (a : Int) : Option Int :=
  match e with
  | none => some a
  | some x => if a < x then some a else some x

/-- The vehicle loop of `findAvailableVehicle`: first vehicle passing both
checks wins (with a null earliest time); otherwise the minimum collected
estimate survives. -/
def goAvail (requestedTime newTripEnd : Int) (pickupLocation : Coordinates)
    (trips : List Trip) (cfg : AppConfig) (stub : RouteStub) :
    List Vehicle → Option Int → Option Vehicle × Option Int
  | [], earliest => (none, earliest)
  | v :: rest, earliest =>
    let ce := checkVehicle requestedTime newTripEnd pickupLocation trips cfg stub v
    let e2 := match ce.2 with
      | some a => minUpdate earliest a
      | none => earliest
    if ce.1 then (some v, none)
    else goAvail requestedTime newTripEnd pickupLocation trips cfg stub rest e2

/-- Candidate window end: requested + ceil(duration/60) + per-stop minutes. -/
def newTripEndMs (requestedTime : Int) (tripDurationSeconds : Nat)
    (cfg : AppConfig) : Int :=
  requestedTime +
    (((tripDurationSeconds + 59) / 60 + cfg.minutesPerStop : Nat) : Int) * 60000

def findAvailableVehicle (requestedTime : Int) (tripDurationSeconds : Nat)
    (pickupLocation : Coordinates) (vehicles : List Vehicle)
    (trips : List Trip) (cfg : AppConfig) (stub : RouteStub) :
    Option Vehicle × Option Int :=
  goAvail requestedTime (newTripEndMs requestedTime tripDurationSeconds cfg)
    pickupLocation trips cfg stub vehicles none

/-- The planned trips surviving the coarse temporal prune of
`findBestMatch` (departure not later than requested + 30 min, last stop
not earlier than requested − 30 min). -/
def survivors (req : BookingRequest) (st : AppState) : List Trip :=
  (st.trips.filter (fun t => decide (t.status = TripStatus.planned))).filter
    (fun t => decide
      (¬ (req.requestedPickupTime + 30 * 60000 < t.departureTime) ∧
       ¬ (tripEndOf t < req.requestedPickupTime - 30 * 60000)))

/-- The candidate-collection loop over the surviving trips, threading the
id counter; each trip contributes at most one candidate. -/
def collectCandidates (req : BookingRequest) (st : AppState)
    (cfg : AppConfig) (stub : RouteStub) :
    List Trip → Nat → List PoolCandidate × Nat
  | [], c => ([], c)
  | t :: rest, c =>
    match tryInsertIntoTrip t req st cfg stub c with
    | (some x, c1) =>
      let pr := collectCandidates req st cfg stub rest c1
      (x :: pr.1, pr.2)
    | (none, c1) => collectCandidates req st cfg stub rest c1

/-- The two stops of a brand-new trip (pickup at the requested time,
dropoff at the given computed time, sequences 0 and 1, ids fresh from the
counter). -/
def newTripStopsOf (req : BookingRequest) (dropoffTime : Int) (ctr : Nat) :
    List TripStop :=
  [ { id := mkStopId (ctr + 1)
      location := req.pickupLocation
      address := req.pickupAddress
      type := StopType.pickup
      bookingId := ""
      scheduledTime := req.requestedPickupTime
      sequence := 0 },
    { id := mkStopId (ctr + 2)
      location := req.dropoffLocation
      address := req.dropoffAddress
      type := StopType.dropoff
      bookingId := ""
      scheduledTime := dropoffTime
      sequence := 1 } ]

/-- Rejection reason for the no-vehicle case. The source interpolates
locale-formatted clock times into the message; the wording is abstracted
here, keeping only the dependency on whether an estimate exists. -/
def noVehicleReason (e : Option Int) : String :=
  match e with
  | some _ => "No vehicle available at the requested time"
  | none => "No vehicle available for this time slot"

/-- `findBestMatch`: pool search over surviving planned trips, then the
direct route, then the availability resolver, then rejection. Returns the
match result together with the advanced stop-id counter. -/
def findBestMatch (req : BookingRequest) (st : AppState) (cfg : AppConfig)
    (stub : RouteStub) (ctr : Nat) : MatchResult × Nat :=
  let pr := collectCandidates req st cfg stub (survivors req st) ctr
  match sortWith candScoreGe pr.1 with
  | best :: _ =>
    (MatchResult.pool best.trip.id best.trip.vehicleId
      best.estimatedPickupTime best.estimatedDropoffTime
      best.estimatedDuration best.routePolyline best.newStops, pr.2)
  | [] =>
    match stub req.pickupLocation req.dropoffLocation [] with
    | none => (MatchResult.rejected "Could not calculate route" none, pr.2)
    | some route =>
      match findAvailableVehicle req.requestedPickupTime route.duration
          req.pickupLocation st.vehicles st.trips cfg stub with
      | (some v, _) =>
        let dropoffTime := req.requestedPickupTime + (route.duration : Int) * 1000
        (MatchResult.new v.id req.requestedPickupTime dropoffTime
          route.duration route.polyline (newTripStopsOf req dropoffTime pr.2),
          pr.2 + 2)
      | (none, earliest) =>
        (MatchResult.rejected (noVehicleReason earliest) earliest, pr.2)

/-- State-threaded form of the engine: the snapshot is passed through the
computation and handed back; the engine's translation contains no state
update anywhere (every snapshot access in the source is a read — filters,
spreads and copied-then-sorted arrays), so the returned snapshot is the
input snapshot. -/
def findBestMatchS (req : BookingRequest) (st : AppState) (cfg : AppConfig)
    (stub : RouteStub) (ctr : Nat) : MatchResult × AppState × Nat :=
  match findBestMatch req st cfg stub ctr with
  | (r, c) => (r, st, c)

/-! ## Concrete scenarios used by witnesses and counterexamples -/

/-- Default operating configuration (8 seats, 8 min max detour, 2 min per
stop, 5 min buffer). -/
def cfgN : AppConfig :=
  { vehicleCount := 3, seatsPerVehicle := 8, maxDetourMinutes := 8
    minutesPerStop := 2, bufferMinutes := 5, googleMapsApiKey := "" }

def vehN : Vehicle :=
  { id := "v1", name := "Vehicle 1", color := "#3B82F6", capacity := 8
    currentLocation := none }

def locA : Coordinates := ⟨1, 1⟩
def locB : Coordinates := ⟨2, 2⟩
def locP : Coordinates := ⟨5, 5⟩
def locD : Coordinates := ⟨6, 6⟩

/-- Existing pickup stop of booking `b1` on the planned trip. -/
def stopP1 : TripStop :=
  { id := "STP-A", location := locA, address := "P1"
    type := StopType.pickup, bookingId := "b1"
    scheduledTime := 60000, sequence := 0 }

/-- Existing dropoff stop of booking `b1`. -/
def stopD1 : TripStop :=
  { id := "STP-B", location := locB, address := "D1"
    type := StopType.dropoff, bookingId := "b1"
    scheduledTime := 600000, sequence := 1 }

def bookingB1 : Booking :=
  { id := "b1", bookingNumber := "BK-001", tripId := some "TRP-001"
    pickupLocation := locA, pickupAddress := "P1"
    dropoffLocation := locB, dropoffAddress := "D1"
    requestedPickupTime := 0, estimatedPickupTime := 60000
    estimatedDropoffTime := 600000, passengerCount := 1
    status := BookingStatus.confirmed, createdAt := 0 }

def tripT1 : Trip :=
  { id := "TRP-001", vehicleId := "v1", status := TripStatus.planned
    stops := [stopP1, stopD1], routePolyline := "rp"
    departureTime := 0, estimatedDuration := 600, createdAt := 0 }

def reqP : BookingRequest :=
  { pickupLocation := locP, pickupAddress := "A2"
    dropoffLocation := locD, dropoffAddress := "B2"
    requestedPickupTime := 0, passengerCount := 1 }

def stPool : AppState :=
  { vehicles := [vehN], bookings := [bookingB1], trips := [tripT1] }

def leg60 : RouteLeg :=
  { duration := 60, distance := 200, startLocation := locA, endLocation := locA }

def routePool : RouteResult :=
  { duration := 180, distance := 1000, polyline := "poly"
    legs := [leg60, leg60, leg60] }

/-- Routing stub that always succeeds with the same three-leg route. -/
def stubPool : RouteStub := fun _ _ _ => some routePool

/-- The updated stop list of the accepted insertion (pickupPos 0,
dropoffPos 1) in the pooling scenario. -/
def poolStopsW : List TripStop :=
  [ { id := "STP-0001", location := locP, address := "A2"
      type := StopType.pickup, bookingId := ""
      scheduledTime := 120000, sequence := 0 },
    { id := "STP-A", location := locA, address := "P1"
      type := StopType.pickup, bookingId := "b1"
      scheduledTime := 300000, sequence := 1 },
    { id := "STP-0002", location := locD, address := "B2"
      type := StopType.dropoff, bookingId := ""
      scheduledTime := 480000, sequence := 2 },
    { id := "STP-B", location := locB, address := "D1"
      type := StopType.dropoff, bookingId := "b1"
      scheduledTime := 660000, sequence := 3 } ]

/-- The accepted pool candidate of the pooling scenario. -/
def candW : PoolCandidate :=
  { trip := tripT1, newStops := poolStopsW
    estimatedPickupTime := 120000, estimatedDropoffTime := 480000
    estimatedDuration := 180, score := 1, routePolyline := "poly" }

/-- Snapshot with one idle vehicle and nothing planned. -/
def stNew : AppState := { vehicles := [vehN], bookings := [], trips := [] }

/-- Same request as `reqP` but with nine passengers (more than the eight
configured seats). -/
def reqP9 : BookingRequest := { reqP with passengerCount := 9 }

/-- Stub for the direct-route-failure scenario: the private direct
pickup-to-dropoff query (origin = request pickup, no waypoints) fails,
every other query succeeds. -/
def stubNoDirect : RouteStub := fun o _ w =>
  if w = [] ∧ o = locP then none else some routePool

/-- Stub for the main-route-failure scenario: any query with waypoints
fails, two-point queries succeed. -/
def stubNoMain : RouteStub := fun _ _ w =>
  if w = [] then some routePool else none

/-- Prior trip for the availability scenario: ends at −30 min at `locA`. -/
def tripPrior : Trip :=
  { id := "TRP-P", vehicleId := "v1", status := TripStatus.planned
    stops := [{ id := "STP-P", location := locA, address := "LP"
                type := StopType.dropoff, bookingId := "bx"
                scheduledTime := -1800000, sequence := 0 }]
    routePolyline := "rp", departureTime := -3600000
    estimatedDuration := 600, createdAt := 0 }

/-- Next trip for the availability scenario: departs at +14 min with one
stop, leaving only a 2-minute gap after the candidate window (< 5 min
buffer). -/
def tripNext : Trip :=
  { id := "TRP-N", vehicleId := "v1", status := TripStatus.planned
    stops := [{ id := "STP-N", location := locB, address := "LN"
                type := StopType.pickup, bookingId := "by"
                scheduledTime := 900000, sequence := 0 }]
    routePolyline := "rp", departureTime := 840000
    estimatedDuration := 600, createdAt := 0 }

/-- Next trip with an EMPTY stop list (for the skipped buffer-gap check). -/
def tripNextEmpty : Trip :=
  { id := "TRP-E", vehicleId := "v1", status := TripStatus.planned
    stops := [], routePolyline := "rp", departureTime := 840000
    estimatedDuration := 600, createdAt := 0 }

/-- Stub for the availability scenarios: queries with waypoints fail (so
no pooling insertion succeeds), the two-point query from the prior trip's
last stop (`locA`) takes 60 s, every other two-point query (in particular
the direct request route) takes 600 s. -/
def routeTravel60 : RouteResult :=
  { duration := 60, distance := 100, polyline := "pa", legs := [] }

def routeDirect600 : RouteResult :=
  { duration := 600, distance := 2000, polyline := "pd", legs := [] }

def stubAvail : RouteStub := fun o _ w =>
  if w ≠ [] then none
  else if o = locA then some routeTravel60
  else some routeDirect600

/-- Snapshot for the C8 counterexample: one vehicle with a feasible prior
trip and a conflicting next trip. -/
def stC8 : AppState :=
  { vehicles := [vehN], bookings := [], trips := [tripPrior, tripNext] }

/-- Snapshot for the C10 witness: one vehicle whose only trip is the
empty-stop next trip. -/
def stC10 : AppState :=
  { vehicles := [vehN], bookings := [], trips := [tripNextEmpty] }

/-! ## Definitions written from the spec's words (for comparison only) -/

/-- Plain positional insertion `l.take n ++ a :: l.drop n`. -/
def specInsertAt (l : List TripStop) (n : Nat) (a : TripStop) : List TripStop :=
  l.take n ++ a :: l.drop n

/-- Claim C4's reading of the splice, following the spec's words: insert
the pickup at `pickupPos`, then insert the dropoff at `dropoffPos`
counted against the list with the pickup already inserted. -/
def specSplice (existing : List TripStop) (p d : Nat) (pu du : TripStop) :
    List TripStop :=
  specInsertAt (specInsertAt existing p pu) d du

/-- Claim C8's reading of a vehicle's earliest-availability estimate,
following the spec's words: an estimate exists only for a busy vehicle
(overlapping trip end + travel + buffer) or a prior-trip-INFEASIBLE
vehicle (projected arrival + buffer); a vehicle that passes the
prior-trip check contributes nothing. -/
def specC8Estimate (requestedTime newTripEnd : Int)
    (pickupLocation : Coordinates) (trips : List Trip) (cfg : AppConfig)
    (stub : RouteStub) (v : Vehicle) : Option Int :=
  let vts := vehicleTripsOf trips v.id
  match findOverlappingTrip vts requestedTime newTripEnd with
  | some ot =>
    match ot.stops.getLast? with
    | some ls =>
      match stub ls.location pickupLocation [] with
      | some r =>
        some (tripEndOf ot + (r.duration : Int) * 1000 +
          (cfg.bufferMinutes : Int) * 60000)
      | none => none
    | none => none
  | none =>
    match priorCheck requestedTime pickupLocation cfg stub
        (findPriorTrip vts requestedTime) with
    | (false, some a) => some a
    | _ => none

/-! ## Helper lemmas -/

theorem mem_insertSorted (le : α → α → Bool) (x a : α) (l : List α) :
    a ∈ insertSorted le x l ↔ a = x ∨ a ∈ l := by
  induction l with
  | nil => simp [insertSorted]
  | cons y ys ih =>
    simp only [insertSorted]
    split
    · simp [List.mem_cons]
    · simp only [List.mem_cons, ih]
      tauto

theorem mem_sortWith (le : α → α → Bool) (a : α) (l : List α) :
    a ∈ sortWith le l ↔ a ∈ l := by
  induction l with
  | nil => simp [sortWith]
  | cons x xs ih => simp [sortWith, mem_insertSorted, ih]

theorem pairwise_insertSorted (le : α → α → Bool)
    (htot : ∀ a b, le a b = true ∨ le b a = true)
    (htrans : ∀ a b c, le a b = true → le b c = true → le a c = true)
    (x : α) (l : List α) (h : l.Pairwise (fun a b => le a b = true)) :
    (insertSorted le x l).Pairwise (fun a b => le a b = true) := by
  induction l with
  | nil => simp [insertSorted]
  | cons y ys ih =>
    rw [List.pairwise_cons] at h
    obtain ⟨hy, hys⟩ := h
    simp only [insertSorted]
    split
    next hxy =>
      rw [List.pairwise_cons]
      refine ⟨?_, List.pairwise_cons.mpr ⟨hy, hys⟩⟩
      intro b hb
      rcases List.mem_cons.mp hb with rfl | hb
      · exact hxy
      · exact htrans x y b hxy (hy b hb)
    next hxy =>
      rw [List.pairwise_cons]
      refine ⟨?_, ih hys⟩
      intro b hb
      rcases (mem_insertSorted le x b ys).mp hb with rfl | hb
      · rcases htot b y with hby | hyb
        · exact absurd hby hxy
        · exact hyb
      · exact hy b hb

theorem pairwise_sortWith (le : α → α → Bool)
    (htot : ∀ a b, le a b = true ∨ le b a = true)
    (htrans : ∀ a b c, le a b = true → le b c = true → le a c = true)
    (l : List α) :
    (sortWith le l).Pairwise (fun a b => le a b = true) := by
  induction l with
  | nil => simp [sortWith]
  | cons x xs ih => exact pairwise_insertSorted le htot htrans x _ ih

theorem sortWith_head_rel (le : α → α → Bool)
    (htot : ∀ a b, le a b = true ∨ le b a = true)
    (htrans : ∀ a b c, le a b = true → le b c = true → le a c = true)
    (l : List α) (b : α) (r : List α) (h : sortWith le l = b :: r)
    (x : α) (hx : x ∈ l) : x = b ∨ le b x = true := by
  have hmem : x ∈ b :: r := h ▸ (mem_sortWith le x l).mpr hx
  rcases List.mem_cons.mp hmem with rfl | hxr
  · exact Or.inl rfl
  · right
    have hp := pairwise_sortWith le htot htrans l
    rw [h, List.pairwise_cons] at hp
    exact hp.1 x hxr

theorem runningOnboard_cons (tb : List Booking) (puId duId : String)
    (rc : Nat) (ob : Int) (s : TripStop) (l : List TripStop) :
    runningOnboard tb puId duId rc ob (s :: l) =
      runningOnboard tb puId duId rc (ob + stopDelta tb puId duId rc s) l := rfl

theorem capacityGo_prefix (tb : List Booking) (puId duId : String)
    (rc seats : Nat) :
    ∀ (stops : List TripStop) (ob : Int),
      capacityGo tb puId duId rc seats ob stops = true →
      ob ≤ (seats : Int) →
      ∀ k, runningOnboard tb puId duId rc ob (stops.take k) ≤ (seats : Int) := by
  intro stops
  induction stops with
  | nil =>
    intro ob h hob k
    simpa [runningOnboard] using hob
  | cons s rest ih =>
    intro ob h hob k
    cases k with
    | zero => simpa [runningOnboard] using hob
    | succ k =>
      rw [List.take_succ_cons, runningOnboard_cons]
      cases hst : s.type with
      | pickup =>
        simp only [capacityGo, hst] at h
        split at h
        · exact absurd h (by simp)
        next hle =>
          have hob2 : ob + (stopCnt tb puId rc s : Int) ≤ (seats : Int) :=
            le_of_not_lt hle
          have hrec := ih (ob + (stopCnt tb puId rc s : Int)) h hob2 k
          simpa [stopDelta, hst] using hrec
      | dropoff =>
        simp only [capacityGo, hst] at h
        have hob2 : ob - (stopCnt tb duId rc s : Int) ≤ (seats : Int) := by
          have hnn : (0 : Int) ≤ (stopCnt tb duId rc s : Int) := Int.ofNat_nonneg _
          omega
        have hrec := ih (ob - (stopCnt tb duId rc s : Int)) h hob2 k
        simpa [stopDelta, hst, sub_eq_add_neg] using hrec

theorem capacityCheck_prefixOk (tb : List Booking) (puId duId : String)
    (rc seats : Nat) (stops : List TripStop)
    (h : capacityCheck tb puId duId rc seats stops = true) :
    capacityPrefixOk tb puId duId rc seats stops :=
  fun k => capacityGo_prefix tb puId duId rc seats stops 0 h
    (Int.ofNat_nonneg seats) k

theorem foldl_minUpdate_some :
    ∀ (l : List Int) (x : Int), ∃ y, l.foldl minUpdate (some x) = some y ∧
      (y = x ∨ y ∈ l) ∧ y ≤ x ∧ ∀ a ∈ l, y ≤ a := by
  intro l
  induction l with
  | nil => intro x; exact ⟨x, rfl, Or.inl rfl, le_refl x, by simp⟩
  | cons a t ih =>
    intro x
    rw [List.foldl_cons]
    by_cases hax : a < x
    · have hmu : minUpdate (some x) a = some a := by simp [minUpdate, hax]
      rw [hmu]
      obtain ⟨y, hy, hmem, hle, hall⟩ := ih a
      refine ⟨y, hy, ?_, le_trans hle (le_of_lt hax), ?_⟩
      · rcases hmem with h1 | hmem
        · exact Or.inr (by rw [h1]; exact List.mem_cons_self a t)
        · exact Or.inr (List.mem_cons_of_mem a hmem)
      · intro b hb
        rcases List.mem_cons.mp hb with h2 | hb
        · rw [h2]; exact hle
        · exact hall b hb
    · have hmu : minUpdate (some x) a = some x := by simp [minUpdate, hax]
      rw [hmu]
      obtain ⟨y, hy, hmem, hle, hall⟩ := ih x
      refine ⟨y, hy, ?_, hle, ?_⟩
      · rcases hmem with h1 | hmem
        · exact Or.inl h1
        · exact Or.inr (List.mem_cons_of_mem a hmem)
      · intro b hb
        rcases List.mem_cons.mp hb with h2 | hb
        · rw [h2]; exact le_trans hle (le_of_not_lt hax)
        · exact hall b hb

theorem foldl_minUpdate_none_eq_none (l : List Int) :
    l.foldl minUpdate none = none ↔ l = [] := by
  cases l with
  | nil => simp
  | cons a t =>
    rw [List.foldl_cons]
    have hmu : minUpdate none a = some a := rfl
    rw [hmu]
    obtain ⟨y, hy, -, -, -⟩ := foldl_minUpdate_some t a
    simp [hy]

theorem foldl_minUpdate_none_some (l : List Int) (m : Int)
    (h : l.foldl minUpdate none = some m) : m ∈ l ∧ ∀ a ∈ l, m ≤ a := by
  cases l with
  | nil => exact absurd h (by simp)
  | cons a t =>
    rw [List.foldl_cons] at h
    have hmu : minUpdate none a = some a := rfl
    rw [hmu] at h
    obtain ⟨y, hy, hmem, hle, hall⟩ := foldl_minUpdate_some t a
    rw [hy] at h
    have hym : y = m := Option.some.inj h
    rw [hym] at hmem hle hall
    constructor
    · rcases hmem with h1 | hmem
      · exact (by rw [h1]; exact List.mem_cons_self a t)
      · exact List.mem_cons_of_mem a hmem
    · intro b hb
      rcases List.mem_cons.mp hb with h2 | hb
      · rw [h2]; exact hle
      · exact hall b hb

theorem evalCore_some_facts (trip : Trip) (existing : List TripStop)
    (tb : List Booking) (req : BookingRequest) (p d pax : Nat)
    (cfg : AppConfig) (stub : RouteStub) (ctr : Nat) (cand : PoolCandidate)
    (h : evalCore trip existing tb req p d pax cfg stub ctr = some cand) :
    cand.trip = trip ∧ cand.score = pax ∧
    capacityCheck tb (mkStopId (ctr + 1)) (mkStopId (ctr + 2))
      req.passengerCount cfg.seatsPerVehicle cand.newStops = true ∧
    existingDetourOk tb cand.newStops cfg.maxDetourMinutes = true := by
  simp only [evalCore] at h
  split at h
  · exact absurd h (by simp)
  next o dest wps hq =>
    split at h
    · exact absurd h (by simp)
    next route hr =>
      split at h
      next pus dus hpu hdu =>
        split at h
        next hcap =>
          split at h
          next hdet =>
            split at h
            · exact absurd h (by simp)
            next hnp =>
              split at h
              · exact absurd h (by simp)
              next hpx =>
                have hc := Option.some.inj h
                rw [← hc]
                refine ⟨rfl, rfl, ?_, ?_⟩
                · simpa [newPickupStopOf, newDropoffStopOf] using hcap
                · simpa using hdet
          next => exact absurd h (by simp)
        next => exact absurd h (by simp)
      next => exact absurd h (by simp)

theorem scanPairs_some (trip : Trip) (existing : List TripStop)
    (tb : List Booking) (req : BookingRequest) (pax : Nat) (cfg : AppConfig)
    (stub : RouteStub) :
    ∀ (pairs : List (Nat × Nat)) (c : Nat) (cand : PoolCandidate) (cfin : Nat),
      scanPairs trip existing tb req pax cfg stub pairs c = (some cand, cfin) →
      ∃ k pd, pairs.get? k = some pd ∧
        evalCore trip existing tb req pd.1 pd.2 pax cfg stub (c + 2 * k) = some cand ∧
        (∀ j pd2, j < k → pairs.get? j = some pd2 →
          evalCore trip existing tb req pd2.1 pd2.2 pax cfg stub (c + 2 * j) = none) ∧
        cfin = c + 2 * k + 2 := by
  intro pairs
  induction pairs with
  | nil =>
    intro c cand cfin h
    simp [scanPairs] at h
  | cons pd rest ih =>
    intro c cand cfin h
    cases hev : evalCore trip existing tb req pd.1 pd.2 pax cfg stub c with
    | some x =>
      simp only [scanPairs, evaluateInsertion, hev] at h
      obtain ⟨h1, h2⟩ := Prod.mk.injEq _ _ _ _ ▸ h
      refine ⟨0, pd, rfl, ?_, ?_, ?_⟩
      · rw [Nat.mul_zero, Nat.add_zero]
        rw [hev, h1]
      · intro j pd2 hj _
        exact absurd hj (Nat.not_lt_zero j)
      · omega
    | none =>
      simp only [scanPairs, evaluateInsertion, hev] at h
      obtain ⟨k, pd2, hg, he, hprev, hc⟩ := ih (c + 2) cand cfin h
      refine ⟨k + 1, pd2, by simpa using hg, ?_, ?_, ?_⟩
      · have harith : c + 2 * (k + 1) = c + 2 + 2 * k := by ring
        rw [harith]
        exact he
      · intro j pdj hj hgj
        cases j with
        | zero =>
          have hpd : pd = pdj := by simpa using hgj
          rw [Nat.mul_zero, Nat.add_zero, ← hpd]
          exact hev
        | succ j2 =>
          have hlt : j2 < k := Nat.lt_of_succ_lt_succ hj
          have hgj2 : rest.get? j2 = some pdj := by simpa using hgj
          have := hprev j2 pdj hlt hgj2
          have harith : c + 2 * (j2 + 1) = c + 2 + 2 * j2 := by ring
          rw [harith]
          exact this
      · omega

theorem tryInsert_some_inv (t : Trip) (req : BookingRequest) (st : AppState)
    (cfg : AppConfig) (stub : RouteStub) (c : Nat) (cand : PoolCandidate)
    (cfin : Nat)
    (h : tryInsertIntoTrip t req st cfg stub c = (some cand, cfin)) :
    ∃ k pd, (lexPairs (sortWith stopSeqLe t.stops).length).get? k = some pd ∧
      evalCore t (sortWith stopSeqLe t.stops) (tripBookingsOf st t.id) req
        pd.1 pd.2 (paxSum (tripBookingsOf st t.id)) cfg stub (c + 2 * k) =
          some cand ∧
      (∀ j pd2, j < k → (lexPairs (sortWith stopSeqLe t.stops).length).get? j = some pd2 →
        evalCore t (sortWith stopSeqLe t.stops) (tripBookingsOf st t.id) req
          pd2.1 pd2.2 (paxSum (tripBookingsOf st t.id)) cfg stub (c + 2 * j) =
            none) ∧
      cfin = c + 2 * k + 2 := by
  simp only [tryInsertIntoTrip] at h
  exact scanPairs_some t _ _ req _ cfg stub _ c cand cfin h

theorem tryInsert_some_trip (t : Trip) (req : BookingRequest) (st : AppState)
    (cfg : AppConfig) (stub : RouteStub) (c : Nat) (cand : PoolCandidate)
    (cfin : Nat)
    (h : tryInsertIntoTrip t req st cfg stub c = (some cand, cfin)) :
    cand.trip = t := by
  obtain ⟨k, pd, -, he, -, -⟩ := tryInsert_some_inv t req st cfg stub c cand cfin h
  exact (evalCore_some_facts t _ _ req _ _ _ cfg stub _ cand he).1

theorem collect_mem (req : BookingRequest) (st : AppState) (cfg : AppConfig)
    (stub : RouteStub) :
    ∀ (l : List Trip) (c : Nat) (cand : PoolCandidate),
      cand ∈ (collectCandidates req st cfg stub l c).1 →
      ∃ t, t ∈ l ∧ ∃ c0 cfin, tryInsertIntoTrip t req st cfg stub c0 = (some cand, cfin) := by
  intro l
  induction l with
  | nil =>
    intro c cand h
    simp [collectCandidates] at h
  | cons t rest ih =>
    intro c cand h
    cases hti : tryInsertIntoTrip t req st cfg stub c with
    | mk r c1 =>
      cases r with
      | some x =>
        simp only [collectCandidates, hti] at h
        rcases List.mem_cons.mp h with h1 | h2
        · refine ⟨t, List.mem_cons_self t rest, c, c1, ?_⟩
          rw [hti, h1]
        · obtain ⟨t2, ht2, hrest⟩ := ih c1 cand h2
          exact ⟨t2, List.mem_cons_of_mem t ht2, hrest⟩
      | none =>
        simp only [collectCandidates, hti] at h
        obtain ⟨t2, ht2, hrest⟩ := ih c1 cand h
        exact ⟨t2, List.mem_cons_of_mem t ht2, hrest⟩

theorem collect_trips_sublist (req : BookingRequest) (st : AppState)
    (cfg : AppConfig) (stub : RouteStub) :
    ∀ (l : List Trip) (c : Nat),
      List.Sublist ((collectCandidates req st cfg stub l c).1.map (fun x => x.trip)) l := by
  intro l
  induction l with
  | nil => intro c; simp [collectCandidates]
  | cons t rest ih =>
    intro c
    cases hti : tryInsertIntoTrip t req st cfg stub c with
    | mk r c1 =>
      cases r with
      | some x =>
        simp only [collectCandidates, hti, List.map_cons]
        have hx : x.trip = t := tryInsert_some_trip t req st cfg stub c x c1 hti
        rw [hx]
        exact List.Sublist.cons₂ t (ih c1)
      | none =>
        simp only [collectCandidates, hti]
        exact List.Sublist.cons t (ih c1)

theorem schedGo_head (legs : List RouteLeg) (perStop : Nat) :
    ∀ (l : List TripStop) (k : Nat) (t : Int) (s : TripStop) (r : List TripStop),
      schedGo legs perStop k t l = s :: r →
      s.scheduledTime =
        (if 0 < k then t + legDurMs legs (k - 1) else t) +
          (perStop : Int) * 60000 := by
  intro l k t s r h
  cases l with
  | nil => simp [schedGo] at h
  | cons s0 rest =>
    simp only [schedGo] at h
    have h1 := (List.cons.injEq _ _ _ _ ▸ h).1
    rw [← h1]

theorem schedGo_succ (legs : List RouteLeg) (perStop : Nat) :
    ∀ (l : List TripStop) (k : Nat) (t : Int) (i : Nat) (a b : TripStop),
      (schedGo legs perStop k t l).get? i = some a →
      (schedGo legs perStop k t l).get? (i + 1) = some b →
      b.scheduledTime =
        a.scheduledTime + legDurMs legs (k + i) + (perStop : Int) * 60000 := by
  intro l
  induction l with
  | nil =>
    intro k t i a b ha hb
    simp [schedGo] at ha
  | cons s0 rest ih =>
    intro k t i a b ha hb
    simp only [schedGo] at ha hb
    cases i with
    | zero =>
      have ha2 : ({ s0 with scheduledTime :=
          (if 0 < k then t + legDurMs legs (k - 1) else t) +
            (perStop : Int) * 60000 } : TripStop) = a := by
        simpa using ha
      have hb2 : (schedGo legs perStop (k + 1)
          ((if 0 < k then t + legDurMs legs (k - 1) else t) +
            (perStop : Int) * 60000) rest).get? 0 = some b := by
        simpa using hb
      cases hrest : schedGo legs perStop (k + 1)
          ((if 0 < k then t + legDurMs legs (k - 1) else t) +
            (perStop : Int) * 60000) rest with
      | nil => rw [hrest] at hb2; simp at hb2
      | cons b0 r0 =>
        rw [hrest] at hb2
        have hbb : b0 = b := by simpa using hb2
        have hh := schedGo_head legs perStop rest (k + 1) _ b0 r0 hrest
        rw [hbb] at hh
        rw [hh, ← ha2]
        simp
    | succ i2 =>
      have ha2 : (schedGo legs perStop (k + 1)
          ((if 0 < k then t + legDurMs legs (k - 1) else t) +
            (perStop : Int) * 60000) rest).get? i2 = some a := by
        simpa using ha
      have hb2 : (schedGo legs perStop (k + 1)
          ((if 0 < k then t + legDurMs legs (k - 1) else t) +
            (perStop : Int) * 60000) rest).get? (i2 + 1) = some b := by
        simpa using hb
      have := ih (k + 1) _ i2 a b ha2 hb2
      have harith : k + 1 + i2 = k + (i2 + 1) := by omega
      rw [harith] at this
      exact this

theorem spliceGo_neg (pu du : TripStop) :
    ∀ (l : List TripStop) (p d : Int), p < 0 → d < 0 →
      spliceGo pu du l p d = l := by
  intro l
  induction l with
  | nil =>
    intro p d hp hd
    have h0 : p ≠ 0 := by omega
    have h1 : d ≠ 0 := by omega
    have h2 : d ≠ 1 := by omega
    simp [spliceGo, h0, h1, h2]
  | cons s rest ih =>
    intro p d hp hd
    have h0 : p ≠ 0 := by omega
    have h1 : d ≠ 0 := by omega
    simp only [spliceGo, h0, h1, if_false]
    rw [ih (p - 1) (d - 1) (by omega) (by omega)]
    simp

theorem spliceGo_drop (pu du : TripStop) :
    ∀ (l : List TripStop) (dn : Nat) (p : Int), p < 0 → dn ≤ l.length + 1 →
      spliceGo pu du l p (dn : Int) = l.take dn ++ du :: l.drop dn := by
  intro l
  induction l with
  | nil =>
    intro dn p hp hd
    simp only [List.length_nil] at hd
    have h0 : p ≠ 0 := by omega
    cases dn with
    | zero => simp [spliceGo, h0]
    | succ k =>
      have hk : k = 0 := by omega
      subst hk
      simp [spliceGo, h0]
  | cons s rest ih =>
    intro dn p hp hd
    simp only [List.length_cons] at hd
    have h0 : p ≠ 0 := by omega
    cases dn with
    | zero =>
      simp only [spliceGo, h0, if_false, Nat.cast_zero, if_true]
      rw [spliceGo_neg pu du rest (p - 1) (0 - 1) (by omega) (by omega)]
      simp
    | succ k =>
      have h1 : ((k : Int) + 1) ≠ 0 := by omega
      have h2 : ((k : Int) + 1) ≠ 1 ∨ k = 0 := by omega
      simp only [spliceGo, h0, if_false, Nat.cast_add, Nat.cast_one, h1]
      have hm : ((k : Int) + 1) - 1 = ((k : Nat) : Int) := by ring
      rw [hm, ih k (p - 1) (by omega) (by omega)]
      simp

theorem spliceGo_full (pu du : TripStop) :
    ∀ (l : List TripStop) (pn dn : Nat), pn ≤ l.length → pn < dn →
      dn ≤ l.length + 1 →
      spliceGo pu du l (pn : Int) (dn : Int) =
        l.take pn ++ pu :: ((l.drop pn).take (dn - pn) ++ du :: l.drop dn) := by
  intro l
  induction l with
  | nil =>
    intro pn dn hp hpd hd
    simp only [List.length_nil] at hp hd
    have hp0 : pn = 0 := by omega
    have hd1 : dn = 1 := by omega
    subst hp0; subst hd1
    simp [spliceGo]
  | cons s rest ih =>
    intro pn dn hp hpd hd
    simp only [List.length_cons] at hp hd
    cases pn with
    | zero =>
      have hd0 : ((dn : Nat) : Int) ≠ 0 := by
        have : 1 ≤ dn := hpd
        omega
      simp only [spliceGo, Nat.cast_zero, if_true, hd0, if_false]
      cases dn with
      | zero => omega
      | succ k =>
        have hcast : (((k + 1 : Nat)) : Int) - 1 = ((k : Nat) : Int) := by
          push_cast; ring
        rw [hcast, spliceGo_drop pu du rest k (0 - 1) (by omega) (by omega)]
        simp [List.take_succ_cons, List.drop_succ_cons, Nat.succ_sub_one]
    | succ m =>
      have hp0 : (((m + 1 : Nat)) : Int) ≠ 0 := by push_cast; omega
      have hd0 : ((dn : Nat) : Int) ≠ 0 := by
        have : 1 ≤ dn := by omega
        omega
      simp only [spliceGo, hp0, hd0, if_false]
      have hm : (((m + 1 : Nat)) : Int) - 1 = ((m : Nat) : Int) := by
        push_cast; ring
      cases dn with
      | zero => omega
      | succ k =>
        have hcast : (((k + 1 : Nat)) : Int) - 1 = ((k : Nat) : Int) := by
          push_cast; ring
        rw [hm, hcast, ih m k (by omega) (by omega) (by omega)]
        simp only [List.take_succ_cons, List.drop_succ_cons]
        have harith : k + 1 - (m + 1) = k - m := by omega
        rw [harith]
        simp

theorem goAvail_none (rt ne : Int) (loc : Coordinates) (trips : List Trip)
    (cfg : AppConfig) (stub : RouteStub) :
    ∀ (l : List Vehicle) (e0 e : Option Int),
      goAvail rt ne loc trips cfg stub l e0 = (none, e) →
      e = (l.filterMap
        (fun v => (checkVehicle rt ne loc trips cfg stub v).2)).foldl minUpdate e0 := by
  intro l
  induction l with
  | nil =>
    intro e0 e h
    simp only [goAvail] at h
    have := (Prod.mk.injEq _ _ _ _ ▸ h).2
    simp [← this]
  | cons v rest ih =>
    intro e0 e h
    simp only [goAvail] at h
    cases hcv : checkVehicle rt ne loc trips cfg stub v with
    | mk can est =>
      rw [hcv] at h
      cases can with
      | true => simp at h
      | false =>
        simp only [if_false, Bool.false_eq_true] at h
        cases est with
        | some a =>
          simp only at h
          have := ih (minUpdate e0 a) e h
          rw [this]
          simp [List.filterMap_cons, hcv]
        | none =>
          simp only at h
          have := ih e0 e h
          rw [this]
          simp [List.filterMap_cons, hcv]

theorem findBestMatch_pool_inv (req : BookingRequest) (st : AppState)
    (cfg : AppConfig) (stub : RouteStub) (ctr : Nat)
    (tid vid : String) (ept edt : Int) (ed : Nat) (rp : String)
    (ns : List TripStop) (c2 : Nat)
    (h : findBestMatch req st cfg stub ctr =
      (MatchResult.pool tid vid ept edt ed rp ns, c2)) :
    ∃ best rest,
      sortWith candScoreGe
        (collectCandidates req st cfg stub (survivors req st) ctr).1 =
          best :: rest ∧
      tid = best.trip.id ∧ vid = best.trip.vehicleId ∧
      ept = best.estimatedPickupTime ∧ edt = best.estimatedDropoffTime ∧
      ed = best.estimatedDuration ∧ rp = best.routePolyline ∧
      ns = best.newStops ∧
      c2 = (collectCandidates req st cfg stub (survivors req st) ctr).2 := by
  simp only [findBestMatch] at h
  split at h
  next best rest hs =>
    have h1 := (Prod.mk.injEq _ _ _ _ ▸ h).1
    have h2 := (Prod.mk.injEq _ _ _ _ ▸ h).2
    injection h1 with i1 i2 i3 i4 i5 i6 i7
    exact ⟨best, rest, hs, i1.symm, i2.symm, i3.symm, i4.symm, i5.symm,
      i6.symm, i7.symm, h2.symm⟩
  next hs =>
    split at h
    · exact absurd h (by simp)
    next route hr =>
      cases hav : findAvailableVehicle req.requestedPickupTime route.duration
          req.pickupLocation st.vehicles st.trips cfg stub with
      | mk ov oe =>
        rw [hav] at h
        cases ov with
        | some v => simp at h
        | none => simp at h

theorem findBestMatch_new_inv (req : BookingRequest) (st : AppState)
    (cfg : AppConfig) (stub : RouteStub) (ctr : Nat)
    (vid : String) (ept edt : Int) (ed : Nat) (rp : String)
    (ns : List TripStop) (c2 : Nat)
    (h : findBestMatch req st cfg stub ctr =
      (MatchResult.new vid ept edt ed rp ns, c2)) :
    ∃ (route : RouteResult) (v : Vehicle),
      stub req.pickupLocation req.dropoffLocation [] = some route ∧
      ns = newTripStopsOf req
        (req.requestedPickupTime + (route.duration : Int) * 1000)
        (collectCandidates req st cfg stub (survivors req st) ctr).2 ∧
      vid = v.id ∧ ept = req.requestedPickupTime ∧
      edt = req.requestedPickupTime + (route.duration : Int) * 1000 ∧
      ed = route.duration := by
  simp only [findBestMatch] at h
  split at h
  next best rest hs => exact absurd h (by simp)
  next hs =>
    split at h
    · exact absurd h (by simp)
    next route hr =>
      cases hav : findAvailableVehicle req.requestedPickupTime route.duration
          req.pickupLocation st.vehicles st.trips cfg stub with
      | mk ov oe =>
        rw [hav] at h
        cases ov with
        | some v =>
          simp only [] at h
          have h1 := (Prod.mk.injEq _ _ _ _ ▸ h).1
          injection h1 with i1 i2 i3 i4 i5 i6
          exact ⟨route, v, hr, i6.symm, i1.symm, i2.symm, i3.symm, i4.symm⟩
        | none => simp at h

theorem newTripStops_capacityPrefixOk (req : BookingRequest) (dt : Int)
    (c1 seats : Nat) (hle : req.passengerCount ≤ seats) :
    capacityPrefixOk [] (mkStopId (c1 + 1)) (mkStopId (c1 + 2))
      req.passengerCount seats (newTripStopsOf req dt c1) := by
  intro k
  match k with
  | 0 =>
    simp only [newTripStopsOf, List.take_zero, runningOnboard, List.foldl_nil]
    exact Int.ofNat_nonneg seats
  | 1 =>
    simp [newTripStopsOf, runningOnboard, stopDelta, stopCnt]
    omega
  | (n + 2) =>
    simp [newTripStopsOf, runningOnboard, stopDelta, stopCnt]

/-! ## Claim theorems -/

/-- C9: for every call of `findBestMatch`, the snapshot (vehicles, trips,
bookings) passed in is unchanged after the call, for every result type
including rejections. In the threaded embedding the engine hands back the
snapshot it was given: its translation contains no state update — every
snapshot access in the source is a read (filters, spreads, copies sorted
in place of the original). -/
theorem spec_c9_snapshot_unchanged (req : BookingRequest) (st : AppState)
    (cfg : AppConfig) (stub : RouteStub) (ctr : Nat) :
    (findBestMatchS req st cfg stub ctr).2.1 = st := by
  simp only [findBestMatchS]

/-- C5 (amended): `findBestMatch` is deterministic given identical
snapshot, config, request, routing stub AND identical id-generator
counter state. (As claimed — with the counter state left out — the claim
fails: the global stop-id counter advances across repeated calls, so the
`newStops` id fields of a second identical call differ; see the
counterexample.) -/
theorem spec_c5_determinism (req : BookingRequest) (st : AppState)
    (cfg : AppConfig) (stub : RouteStub) (c1 c2 : Nat) (h : c1 = c2) :
    findBestMatch req st cfg stub c1 = findBestMatch req st cfg stub c2 := by
  rw [h]

/-- C5 witness: the determinism theorem applied at a concrete input. -/
theorem spec_c5_determinism_witness :
    findBestMatch reqP stNew cfgN stubPool 0 =
      findBestMatch reqP stNew cfgN stubPool 0 :=
  spec_c5_determinism reqP stNew cfgN stubPool 0 0 rfl

/-- C5 counterexample: two sequential calls with identical snapshot,
config, request and deterministic stub return different MatchResults —
the second call's `newStops` carry fresh stop ids from the advanced
global counter. -/
theorem spec_c5_counterexample :
    (findBestMatch reqP stNew cfgN stubPool
      (findBestMatch reqP stNew cfgN stubPool 0).2).1 ≠
    (findBestMatch reqP stNew cfgN stubPool 0).1 := by decide

/-- C10: in the vehicle availability resolver, a vehicle whose next trip
(the earliest trip departing strictly after the candidate window's end)
has an EMPTY stop list skips the buffer-gap feasibility check entirely:
with no overlapping trip and no prior trip, the vehicle is returned as
available no matter how small the gap to that next trip is (no gap
hypothesis appears below). -/
theorem spec_c10_empty_next_trip_skips_gap (rt ne : Int) (loc : Coordinates)
    (trips : List Trip) (cfg : AppConfig) (stub : RouteStub) (v : Vehicle)
    (hov : findOverlappingTrip (vehicleTripsOf trips v.id) rt ne = none)
    (hpr : findPriorTrip (vehicleTripsOf trips v.id) rt = none)
    (nt : Trip) (hnt : findNextTrip (vehicleTripsOf trips v.id) ne = some nt)
    (hstops : nt.stops = []) :
    ∀ (rest : List Vehicle) (e : Option Int),
      goAvail rt ne loc trips cfg stub (v :: rest) e = (some v, none) := by
  intro rest e
  simp [goAvail, checkVehicle, hov, hpr, hnt, priorCheck, nextCheck, hstops]

/-- C10 witness: a vehicle whose only trip is an empty-stop next trip
leaving a 2-minute gap (less than the 5-minute buffer) is still returned
as available. -/
theorem spec_c10_witness :
    tripNextEmpty.departureTime - newTripEndMs 0 600 cfgN <
      minutesMs cfgN.bufferMinutes ∧
    findAvailableVehicle 0 600 locP [vehN] stC10.trips cfgN stubAvail =
      (some vehN, none) := by
  constructor
  · decide
  · exact spec_c10_empty_next_trip_skips_gap 0 (newTripEndMs 0 600 cfgN) locP
      stC10.trips cfgN stubAvail vehN (by decide) (by decide) tripNextEmpty
      (by decide) rfl [] none

/-- C3 (amended): the schedule rebuilt by the insertion evaluator gives
the FIRST stop the trip's departure time advanced by the per-stop service
time (the service time is added at every stop, the first included — not
the bare departure time the claim states), and gives each subsequent stop
the previous stop's time advanced by that leg's travel duration and then
by the per-stop service time. -/
theorem spec_c3_schedule (dep : Int) (per : Nat) (legs : List RouteLeg)
    (stops : List TripStop) :
    (∀ (s : TripStop) (r : List TripStop),
      scheduleStops dep per legs stops = s :: r →
      s.scheduledTime = dep + (per : Int) * 60000) ∧
    (∀ (i : Nat) (a b : TripStop),
      (scheduleStops dep per legs stops).get? i = some a →
      (scheduleStops dep per legs stops).get? (i + 1) = some b →
      b.scheduledTime =
        a.scheduledTime + legDurMs legs i + (per : Int) * 60000) := by
  constructor
  · intro s r h
    have hh := schedGo_head legs per stops 0 dep s r h
    simpa using hh
  · intro i a b ha hb
    have hh := schedGo_succ legs per stops 0 dep i a b ha hb
    simpa using hh

/-- C3 witness: the schedule theorem applied to a concrete two-stop
route (departure 0, 2 min service, one 60 s leg). -/
theorem spec_c3_witness :
    (∃ s r, scheduleStops 0 2 [leg60] [stopP1, stopD1] = s :: r ∧
      s.scheduledTime = 0 + ((2 : Nat) : Int) * 60000) ∧
    (∃ a b, (scheduleStops 0 2 [leg60] [stopP1, stopD1]).get? 0 = some a ∧
      (scheduleStops 0 2 [leg60] [stopP1, stopD1]).get? 1 = some b ∧
      b.scheduledTime =
        a.scheduledTime + legDurMs [leg60] 0 + ((2 : Nat) : Int) * 60000) := by
  have h1 : scheduleStops 0 2 [leg60] [stopP1, stopD1] =
      { stopP1 with scheduledTime := 120000 } ::
        [{ stopD1 with scheduledTime := 300000 }] := by decide
  have h2 : (scheduleStops 0 2 [leg60] [stopP1, stopD1]).get? 0 =
      some { stopP1 with scheduledTime := 120000 } := by decide
  have h3 : (scheduleStops 0 2 [leg60] [stopP1, stopD1]).get? 1 =
      some { stopD1 with scheduledTime := 300000 } := by decide
  exact ⟨⟨_, _, h1, (spec_c3_schedule 0 2 [leg60] [stopP1, stopD1]).1 _ _ h1⟩,
    ⟨_, _, h2, h3, (spec_c3_schedule 0 2 [leg60] [stopP1, stopD1]).2 0 _ _ h2 h3⟩⟩

/-- C3 counterexample: a concrete insertion evaluation that reaches
scheduling assigns the first stop 120000 ms (departure + 2 min service),
not the trip's departure time 0. -/
theorem spec_c3_counterexample :
    evalCore tripT1 [stopP1, stopD1] [bookingB1] reqP 0 1 1 cfgN stubPool 0 =
      some candW ∧
    candW.newStops.head?.map (fun s => s.scheduledTime) = some 120000 ∧
    tripT1.departureTime = 0 ∧ (120000 : Int) ≠ 0 :=
  ⟨by decide, by decide, rfl, by decide⟩

/-- C4 (amended): the rebuilt stop list equals the original list with the
new pickup inserted immediately before the original stop at index
`pickupPos` and the new dropoff inserted immediately before the original
stop at index `dropoffPos` — both indices counted against the ORIGINAL
stop list, not the pickup-inserted list (`dropoffPos = len` and
`dropoffPos = len + 1` both append the dropoff at the end) — then
resequenced; the relative order of the existing stops is preserved. -/
theorem spec_c4_splice (existing : List TripStop) (req : BookingRequest)
    (p d ctr : Nat) (hp : p ≤ existing.length) (hpd : p < d)
    (hd : d ≤ existing.length + 1) :
    rebuiltStopsOf existing req p d ctr =
      resequence (existing.take p ++ newPickupStopOf req p ctr ::
        ((existing.drop p).take (d - p) ++ newDropoffStopOf req d ctr ::
          existing.drop d)) := by
  unfold rebuiltStopsOf
  rw [spliceGo_full (newPickupStopOf req p ctr) (newDropoffStopOf req d ctr)
    existing p d hp hpd hd]

/-- C4 witness: the splice characterization applied at a concrete
two-stop list with pickupPos 0, dropoffPos 1. -/
theorem spec_c4_witness :
    rebuiltStopsOf [stopP1, stopD1] reqP 0 1 0 =
      resequence ([stopP1, stopD1].take 0 ++ newPickupStopOf reqP 0 0 ::
        ((([stopP1, stopD1].drop 0).take (1 - 0)) ++
          newDropoffStopOf reqP 1 0 :: [stopP1, stopD1].drop 1)) :=
  spec_c4_splice [stopP1, stopD1] reqP 0 1 0 (by decide) (by decide) (by decide)

/-- C4 counterexample: with pickupPos 0 and dropoffPos 1 on a two-stop
trip, the code produces [pickup, stop0, dropoff, stop1], while the
claim's indexing (dropoffPos counted against the pickup-inserted list,
so dropoffPos = pickupPos+1 puts the dropoff right after the pickup)
predicts [pickup, dropoff, stop0, stop1]. -/
theorem spec_c4_counterexample :
    (rebuiltStopsOf [stopP1, stopD1] reqP 0 1 0).map (fun s => s.id) =
      ["STP-0001", "STP-A", "STP-0002", "STP-B"] ∧
    (resequence (specSplice [stopP1, stopD1] 0 1 (newPickupStopOf reqP 0 0)
      (newDropoffStopOf reqP 1 0))).map (fun s => s.id) =
      ["STP-0001", "STP-0002", "STP-A", "STP-B"] ∧
    rebuiltStopsOf [stopP1, stopD1] reqP 0 1 0 ≠
      resequence (specSplice [stopP1, stopD1] 0 1 (newPickupStopOf reqP 0 0)
        (newDropoffStopOf reqP 1 0)) :=
  ⟨by decide, by decide, by decide⟩

/-- C6: for every accepted insertion and every confirmed booking on the
trip whose dropoff stop appears in the rebuilt stop list, the booking's
recomputed dropoff time exceeds its previously promised estimated
dropoff time by at most max-detour minutes. -/
theorem spec_c6_existing_detour (trip : Trip) (existing : List TripStop)
    (tb : List Booking) (req : BookingRequest) (p d pax : Nat)
    (cfg : AppConfig) (stub : RouteStub) (ctr : Nat) (cand : PoolCandidate)
    (h : evalCore trip existing tb req p d pax cfg stub ctr = some cand)
    (b : Booking) (hb : b ∈ tb) (s : TripStop)
    (hs : cand.newStops.find?
      (fun s2 => decide (s2.bookingId = b.id ∧ s2.type = StopType.dropoff)) =
        some s) :
    s.scheduledTime - b.estimatedDropoffTime ≤
      minutesMs cfg.maxDetourMinutes := by
  have hdet :=
    (evalCore_some_facts trip existing tb req p d pax cfg stub ctr cand h).2.2.2
  rw [existingDetourOk, List.all_eq_true] at hdet
  have hbdet := hdet b hb
  simp only [hs] at hbdet
  exact of_decide_eq_true hbdet

/-- C6 witness: in the concrete pooling scenario the accepted insertion
delays booking b1's dropoff from 600000 to 660000 (1 minute ≤ 8). -/
theorem spec_c6_witness :
    (660000 : Int) - 600000 ≤ minutesMs cfgN.maxDetourMinutes := by
  have h := spec_c6_existing_detour tripT1 [stopP1, stopD1] [bookingB1] reqP
    0 1 1 cfgN stubPool 0 candW (by decide) bookingB1 (by decide)
    { stopD1 with scheduledTime := 660000, sequence := 3 } (by decide)
  exact h

/-- C1 (amended): capacity safety of returned matches. For every `pool`
result, walking the result's newStops in order — adding each pickup's
count and subtracting each dropoff's count, resolving counts from the
trip's confirmed bookings and falling back to the request's count for
the two freshly inserted stops (identified by their generated ids) —
never exceeds the configured seats at any stop. For every `new` result,
the same walk respects the seat count ONLY under the precondition
`passengerCount ≤ seatsPerVehicle`: the engine performs no capacity
check on the new-trip path (the booking UI enforces that bound, the
engine does not — see the counterexample). -/
theorem spec_c1_capacity (req : BookingRequest) (st : AppState)
    (cfg : AppConfig) (stub : RouteStub) (ctr : Nat) (res : MatchResult)
    (cfin : Nat) (h : findBestMatch req st cfg stub ctr = (res, cfin)) :
    (∀ tid vid ept edt ed rp ns,
      res = MatchResult.pool tid vid ept edt ed rp ns →
      ∃ (t : Trip) (c0 k : Nat) (pd : Nat × Nat) (cand : PoolCandidate),
        t ∈ survivors req st ∧ tid = t.id ∧
        (lexPairs (sortWith stopSeqLe t.stops).length).get? k = some pd ∧
        evalCore t (sortWith stopSeqLe t.stops) (tripBookingsOf st t.id) req
          pd.1 pd.2 (paxSum (tripBookingsOf st t.id)) cfg stub (c0 + 2 * k) =
            some cand ∧
        ns = cand.newStops ∧
        capacityPrefixOk (tripBookingsOf st t.id) (mkStopId (c0 + 2 * k + 1))
          (mkStopId (c0 + 2 * k + 2)) req.passengerCount cfg.seatsPerVehicle
          ns) ∧
    (∀ vid ept edt ed rp ns,
      res = MatchResult.new vid ept edt ed rp ns →
      req.passengerCount ≤ cfg.seatsPerVehicle →
      ∃ (dt : Int) (c1 : Nat), ns = newTripStopsOf req dt c1 ∧
        capacityPrefixOk [] (mkStopId (c1 + 1)) (mkStopId (c1 + 2))
          req.passengerCount cfg.seatsPerVehicle ns) := by
  constructor
  · intro tid vid ept edt ed rp ns hres
    subst hres
    obtain ⟨best, rest, hs, htid, -, -, -, -, -, hns, -⟩ :=
      findBestMatch_pool_inv req st cfg stub ctr tid vid ept edt ed rp ns
        cfin h
    have hbmem : best ∈
        (collectCandidates req st cfg stub (survivors req st) ctr).1 := by
      have hmem : best ∈ best :: rest := List.mem_cons_self best rest
      rw [← hs] at hmem
      exact (mem_sortWith candScoreGe best _).mp hmem
    obtain ⟨t, htmem, c0, cf2, hti⟩ :=
      collect_mem req st cfg stub _ ctr best hbmem
    obtain ⟨k, pd, hk, he, -, -⟩ :=
      tryInsert_some_inv t req st cfg stub c0 best cf2 hti
    obtain ⟨htrip, -, hcap, -⟩ :=
      evalCore_some_facts t _ _ req _ _ _ cfg stub _ best he
    refine ⟨t, c0, k, pd, best, htmem, ?_, hk, he, hns, ?_⟩
    · rw [htid, htrip]
    · rw [hns]
      exact capacityCheck_prefixOk _ _ _ _ _ _ hcap
  · intro vid ept edt ed rp ns hres hle
    subst hres
    obtain ⟨route, v, -, hns, -, -, -, -⟩ :=
      findBestMatch_new_inv req st cfg stub ctr vid ept edt ed rp ns cfin h
    refine ⟨_, _, hns, ?_⟩
    rw [hns]
    exact newTripStops_capacityPrefixOk req _ _ cfg.seatsPerVehicle hle

/-- C1 witness: the capacity theorem's new-trip clause applied to the
concrete single-vehicle scenario (1 passenger ≤ 8 seats). -/
theorem spec_c1_witness :
    ∃ (dt : Int) (c1 : Nat),
      newTripStopsOf reqP 180000 0 = newTripStopsOf reqP dt c1 ∧
      capacityPrefixOk [] (mkStopId (c1 + 1)) (mkStopId (c1 + 2))
        reqP.passengerCount cfgN.seatsPerVehicle (newTripStopsOf reqP 180000 0) :=
  (spec_c1_capacity reqP stNew cfgN stubPool 0
    (MatchResult.new "v1" 0 180000 180 "poly" (newTripStopsOf reqP 180000 0)) 2
    (by decide)).2 "v1" 0 180000 180 "poly" (newTripStopsOf reqP 180000 0)
    rfl (by decide)

/-- C1 counterexample: a request for nine passengers against a fleet of
8-seat vehicles is still matched as a `new` trip — the engine applies no
capacity check on that path, so the claim's capacity walk exceeds the
configured seat count at the very first stop. -/
theorem spec_c1_counterexample :
    (findBestMatch reqP9 stNew cfgN stubPool 0).1 =
      MatchResult.new "v1" 0 180000 180 "poly" (newTripStopsOf reqP9 180000 0) ∧
    ¬ capacityPrefixOk [] (mkStopId 1) (mkStopId 2) reqP9.passengerCount
        cfgN.seatsPerVehicle (newTripStopsOf reqP9 180000 0) := by
  constructor
  · decide
  · intro hok
    exact absurd (hok 1) (by decide)

/-- C2 (amended): routing-failure handling in the insertion evaluator.
(1) When the full-route call for the spliced stop list fails, the
evaluator rejects that position pair (and still advances the id counter
by 2). (2) A rejected pair makes the outer scan simply try the next
pair. (3) When only the PRIVATE DIRECT pickup-to-dropoff route fails,
the evaluator does NOT reject: the new-passenger detour check is skipped
and the pair is accepted whenever every other check passes — contrary to
the claim that any routing failure rejects the pair (see the
counterexample). -/
theorem spec_c2_routing_failure :
    (∀ (trip : Trip) (existing : List TripStop) (tb : List Booking)
        (req : BookingRequest) (p d pax : Nat) (cfg : AppConfig)
        (stub : RouteStub) (ctr : Nat)
        (q : Coordinates × Coordinates × List Coordinates),
      routeQueryOf (rebuiltStopsOf existing req p d ctr) = some q →
      stub q.1 q.2.1 q.2.2 = none →
      evaluateInsertion trip existing tb req p d pax cfg stub ctr =
        (none, ctr + 2)) ∧
    (∀ (trip : Trip) (existing : List TripStop) (tb : List Booking)
        (req : BookingRequest) (p d pax : Nat) (cfg : AppConfig)
        (stub : RouteStub) (c : Nat) (rest : List (Nat × Nat)),
      evalCore trip existing tb req p d pax cfg stub c = none →
      scanPairs trip existing tb req pax cfg stub ((p, d) :: rest) c =
        scanPairs trip existing tb req pax cfg stub rest (c + 2)) ∧
    (∀ (trip : Trip) (existing : List TripStop) (tb : List Booking)
        (req : BookingRequest) (p d pax : Nat) (cfg : AppConfig)
        (stub : RouteStub) (ctr : Nat) (o dest : Coordinates)
        (wps : List Coordinates) (route : RouteResult) (pus dus : TripStop),
      routeQueryOf (rebuiltStopsOf existing req p d ctr) = some (o, dest, wps) →
      stub o dest wps = some route →
      (scheduleStops trip.departureTime cfg.minutesPerStop route.legs
        (rebuiltStopsOf existing req p d ctr)).find?
          (fun s => decide (s.id = (newPickupStopOf req p ctr).id)) =
            some pus →
      (scheduleStops trip.departureTime cfg.minutesPerStop route.legs
        (rebuiltStopsOf existing req p d ctr)).find?
          (fun s => decide (s.id = (newDropoffStopOf req d ctr).id)) =
            some dus →
      capacityCheck tb (newPickupStopOf req p ctr).id
        (newDropoffStopOf req d ctr).id req.passengerCount
        cfg.seatsPerVehicle
        (scheduleStops trip.departureTime cfg.minutesPerStop route.legs
          (rebuiltStopsOf existing req p d ctr)) = true →
      existingDetourOk tb
        (scheduleStops trip.departureTime cfg.minutesPerStop route.legs
          (rebuiltStopsOf existing req p d ctr)) cfg.maxDetourMinutes = true →
      stub req.pickupLocation req.dropoffLocation [] = none →
      proximityRejects req pus.scheduledTime = false →
      evaluateInsertion trip existing tb req p d pax cfg stub ctr =
        (some
          { trip := trip
            newStops := scheduleStops trip.departureTime cfg.minutesPerStop
              route.legs (rebuiltStopsOf existing req p d ctr)
            estimatedPickupTime := pus.scheduledTime
            estimatedDropoffTime := dus.scheduledTime
            estimatedDuration := route.duration
            score := pax
            routePolyline := route.polyline }, ctr + 2)) := by
  refine ⟨?_, ?_, ?_⟩
  · intro trip existing tb req p d pax cfg stub ctr q hq hstub
    obtain ⟨o, de, w⟩ := q
    simp only [evaluateInsertion, evalCore, hq, hstub]
  · intro trip existing tb req p d pax cfg stub c rest h
    simp only [scanPairs, evaluateInsertion, h]
  · intro trip existing tb req p d pax cfg stub ctr o dest wps route pus dus
      hq hroute hpu hdu hcap hdet hdirect hpx
    simp only [evaluateInsertion, evalCore, hq, hroute, hpu, hdu, hcap,
      hdet, newPaxRejects, hdirect, hpx, if_true, if_false]
    simp

/-- C2 witness: part (1) applied to a concrete main-route failure
(rejection with the counter advanced), and part (3) applied to a
concrete direct-route failure (pair still accepted). -/
theorem spec_c2_witness :
    evaluateInsertion tripT1 [stopP1, stopD1] [bookingB1] reqP 0 1 1 cfgN
      stubNoMain 0 = (none, 2) ∧
    stubNoDirect reqP.pickupLocation reqP.dropoffLocation [] = none ∧
    evaluateInsertion tripT1 [stopP1, stopD1] [bookingB1] reqP 0 1 1 cfgN
      stubNoDirect 0 = (some candW, 2) := by
  refine ⟨?_, by decide, ?_⟩
  · exact spec_c2_routing_failure.1 tripT1 [stopP1, stopD1] [bookingB1] reqP
      0 1 1 cfgN stubNoMain 0 (locP, locB, [locA, locD]) (by decide)
      (by decide)
  · have happ := spec_c2_routing_failure.2.2 tripT1 [stopP1, stopD1]
      [bookingB1] reqP 0 1 1 cfgN stubNoDirect 0 locP locB [locA, locD]
      routePool
      { id := "STP-0001", location := locP, address := "A2"
        type := StopType.pickup, bookingId := ""
        scheduledTime := 120000, sequence := 0 }
      { id := "STP-0002", location := locD, address := "B2"
        type := StopType.dropoff, bookingId := ""
        scheduledTime := 480000, sequence := 2 }
      (by decide) (by decide) (by decide) (by decide) (by decide)
      (by decide) (by decide) (by decide)
    exact happ.trans (by decide)

/-- C2 counterexample: an evaluation during which a routing call — the
private direct pickup-to-dropoff route — fails, yet the evaluator
ACCEPTS the position pair instead of rejecting it. -/
theorem spec_c2_counterexample :
    stubNoDirect reqP.pickupLocation reqP.dropoffLocation [] = none ∧
    evalCore tripT1 [stopP1, stopD1] [bookingB1] reqP 0 1 1 cfgN
      stubNoDirect 0 = some candW :=
  ⟨by decide, by decide⟩

/-- C7: whenever `findBestMatch` returns a `pool` result, it is built
from a candidate of a surviving planned trip; that candidate is the
FIRST successful position pair of its trip in the fixed scan order
(pickupPos ascending, dropoffPos ascending from pickupPos+1 — all
earlier pairs fail); its trip's existing confirmed passenger count
(its score, proven equal to the sum of the trip's confirmed bookings'
passenger counts) is maximal among all collected candidates; and at most one
candidate is kept per trip (the candidates' trips form a sublist of the
surviving trips). -/
theorem spec_c7_first_fit_ranking (req : BookingRequest) (st : AppState)
    (cfg : AppConfig) (stub : RouteStub) (ctr : Nat) (tid vid : String)
    (ept edt : Int) (ed : Nat) (rp : String) (ns : List TripStop)
    (cfin : Nat)
    (h : findBestMatch req st cfg stub ctr =
      (MatchResult.pool tid vid ept edt ed rp ns, cfin)) :
    ∃ best : PoolCandidate,
      best ∈ (collectCandidates req st cfg stub (survivors req st) ctr).1 ∧
      tid = best.trip.id ∧ vid = best.trip.vehicleId ∧ ns = best.newStops ∧
      (∀ cand ∈ (collectCandidates req st cfg stub (survivors req st) ctr).1,
        cand.score ≤ best.score) ∧
      List.Sublist
        ((collectCandidates req st cfg stub (survivors req st) ctr).1.map
          (fun x => x.trip)) (survivors req st) ∧
      ∃ (t : Trip) (c0 cf2 : Nat), t ∈ survivors req st ∧ best.trip = t ∧
        best.score = paxSum (tripBookingsOf st t.id) ∧
        tryInsertIntoTrip t req st cfg stub c0 = (some best, cf2) ∧
        ∃ (k : Nat) (pd : Nat × Nat),
          (lexPairs (sortWith stopSeqLe t.stops).length).get? k = some pd ∧
          evalCore t (sortWith stopSeqLe t.stops) (tripBookingsOf st t.id)
            req pd.1 pd.2 (paxSum (tripBookingsOf st t.id)) cfg stub
            (c0 + 2 * k) = some best ∧
          ∀ (j : Nat) (pd2 : Nat × Nat), j < k →
            (lexPairs (sortWith stopSeqLe t.stops).length).get? j = some pd2 →
            evalCore t (sortWith stopSeqLe t.stops) (tripBookingsOf st t.id)
              req pd2.1 pd2.2 (paxSum (tripBookingsOf st t.id)) cfg stub
              (c0 + 2 * j) = none := by
  have htot : ∀ a b : PoolCandidate,
      candScoreGe a b = true ∨ candScoreGe b a = true := by
    intro a b
    simp only [candScoreGe, decide_eq_true_eq]
    omega
  have htrans : ∀ a b c : PoolCandidate, candScoreGe a b = true →
      candScoreGe b c = true → candScoreGe a c = true := by
    intro a b c
    simp only [candScoreGe, decide_eq_true_eq]
    omega
  obtain ⟨best, rest, hs, htid, hvid, -, -, -, -, hns, -⟩ :=
    findBestMatch_pool_inv req st cfg stub ctr tid vid ept edt ed rp ns
      cfin h
  have hbmem : best ∈
      (collectCandidates req st cfg stub (survivors req st) ctr).1 := by
    have hmem : best ∈ best :: rest := List.mem_cons_self best rest
    rw [← hs] at hmem
    exact (mem_sortWith candScoreGe best _).mp hmem
  obtain ⟨t, htmem, c0, cf2, hti⟩ :=
    collect_mem req st cfg stub _ ctr best hbmem
  obtain ⟨k, pd, hk, he, hprev, -⟩ :=
    tryInsert_some_inv t req st cfg stub c0 best cf2 hti
  have htrip := tryInsert_some_trip t req st cfg stub c0 best cf2 hti
  have hscore := (evalCore_some_facts t _ _ req _ _ _ cfg stub _ best he).2.1
  refine ⟨best, hbmem, htid, hvid, hns, ?_, ?_, t, c0, cf2, htmem, htrip,
    hscore, hti, k, pd, hk, he, hprev⟩
  · intro cand hcand
    rcases sortWith_head_rel candScoreGe htot htrans _ best rest hs cand
        hcand with heq | hrel
    · rw [heq]
    · exact of_decide_eq_true hrel
  · exact collect_trips_sublist req st cfg stub (survivors req st) ctr

/-- C7 witness: the first-fit/ranking theorem applied to the concrete
pooling scenario (one planned trip carrying one confirmed passenger;
the insertion at (pickupPos, dropoffPos) = (0, 1) succeeds first). -/
theorem spec_c7_witness :
    ∃ best : PoolCandidate,
      best ∈ (collectCandidates reqP stPool cfgN stubPool
        (survivors reqP stPool) 0).1 ∧
      "TRP-001" = best.trip.id ∧ "v1" = best.trip.vehicleId ∧
      poolStopsW = best.newStops ∧
      (∀ cand ∈ (collectCandidates reqP stPool cfgN stubPool
          (survivors reqP stPool) 0).1, cand.score ≤ best.score) ∧
      List.Sublist
        ((collectCandidates reqP stPool cfgN stubPool
          (survivors reqP stPool) 0).1.map (fun x => x.trip))
        (survivors reqP stPool) ∧
      ∃ (t : Trip) (c0 cf2 : Nat), t ∈ survivors reqP stPool ∧
        best.trip = t ∧
        best.score = paxSum (tripBookingsOf stPool t.id) ∧
        tryInsertIntoTrip t reqP stPool cfgN stubPool c0 = (some best, cf2) ∧
        ∃ (k : Nat) (pd : Nat × Nat),
          (lexPairs (sortWith stopSeqLe t.stops).length).get? k = some pd ∧
          evalCore t (sortWith stopSeqLe t.stops)
            (tripBookingsOf stPool t.id) reqP pd.1 pd.2
            (paxSum (tripBookingsOf stPool t.id)) cfgN stubPool
            (c0 + 2 * k) = some best ∧
          ∀ (j : Nat) (pd2 : Nat × Nat), j < k →
            (lexPairs (sortWith stopSeqLe t.stops).length).get? j = some pd2 →
            evalCore t (sortWith stopSeqLe t.stops)
              (tripBookingsOf stPool t.id) reqP pd2.1 pd2.2
              (paxSum (tripBookingsOf stPool t.id)) cfgN stubPool
              (c0 + 2 * j) = none :=
  spec_c7_first_fit_ranking reqP stPool cfgN stubPool 0 "TRP-001" "v1"
    120000 480000 180 "poly" poolStopsW 2 (by decide)

/-- C8 (amended): when no pooling candidate exists, the direct route
succeeds and no vehicle passes the availability checks, `findBestMatch`
returns a `rejected` result whose `earliestAvailableTime` is the MINIMUM
of the per-vehicle estimates actually collected by the resolver — which
are: for a busy vehicle, its overlapping trip's end + travel + buffer;
for a prior-trip-infeasible vehicle, its projected arrival + buffer; and
ALSO (missing from the claim) for a vehicle that passes the prior-trip
check but conflicts with its next trip, the projected arrival WITHOUT
buffer — or no `earliestAvailableTime` when no estimate was obtainable. -/
theorem spec_c8_earliest_available (req : BookingRequest) (st : AppState)
    (cfg : AppConfig) (stub : RouteStub) (ctr c1 : Nat)
    (route : RouteResult) (e : Option Int)
    (hc : collectCandidates req st cfg stub (survivors req st) ctr = ([], c1))
    (hroute : stub req.pickupLocation req.dropoffLocation [] = some route)
    (hav : findAvailableVehicle req.requestedPickupTime route.duration
      req.pickupLocation st.vehicles st.trips cfg stub = (none, e)) :
    findBestMatch req st cfg stub ctr =
      (MatchResult.rejected (noVehicleReason e) e, c1) ∧
    (e = none ↔ st.vehicles.filterMap (fun v =>
      (checkVehicle req.requestedPickupTime
        (newTripEndMs req.requestedPickupTime route.duration cfg)
        req.pickupLocation st.trips cfg stub v).2) = []) ∧
    (∀ m, e = some m →
      m ∈ st.vehicles.filterMap (fun v =>
        (checkVehicle req.requestedPickupTime
          (newTripEndMs req.requestedPickupTime route.duration cfg)
          req.pickupLocation st.trips cfg stub v).2) ∧
      ∀ a ∈ st.vehicles.filterMap (fun v =>
        (checkVehicle req.requestedPickupTime
          (newTripEndMs req.requestedPickupTime route.duration cfg)
          req.pickupLocation st.trips cfg stub v).2), m ≤ a) := by
  have hgo : goAvail req.requestedPickupTime
      (newTripEndMs req.requestedPickupTime route.duration cfg)
      req.pickupLocation st.trips cfg stub st.vehicles none = (none, e) := hav
  have hfold := goAvail_none req.requestedPickupTime
    (newTripEndMs req.requestedPickupTime route.duration cfg)
    req.pickupLocation st.trips cfg stub st.vehicles none e hgo
  refine ⟨?_, ?_, ?_⟩
  · simp only [findBestMatch, hc, sortWith, hroute, hav]
  · rw [hfold]
    constructor
    · intro hnone
      exact (foldl_minUpdate_none_eq_none _).mp hnone
    · intro hnil
      rw [hnil]
      rfl
  · intro m hm
    rw [hfold] at hm
    exact foldl_minUpdate_none_some _ m hm

/-- C8 witness: the amended theorem applied to the concrete scenario of
one vehicle with a feasible prior trip and a conflicting next trip; the
single collected estimate (−1740000, the prior-trip arrival without
buffer) is the returned minimum. -/
theorem spec_c8_witness :
    findBestMatch reqP stC8 cfgN stubAvail 0 =
      (MatchResult.rejected (noVehicleReason (some (-1740000)))
        (some (-1740000)), 12) ∧
    (∀ m, (some (-1740000) : Option Int) = some m →
      m ∈ stC8.vehicles.filterMap (fun v =>
        (checkVehicle reqP.requestedPickupTime
          (newTripEndMs reqP.requestedPickupTime routeDirect600.duration cfgN)
          reqP.pickupLocation stC8.trips cfgN stubAvail v).2) ∧
      ∀ a ∈ stC8.vehicles.filterMap (fun v =>
        (checkVehicle reqP.requestedPickupTime
          (newTripEndMs reqP.requestedPickupTime routeDirect600.duration cfgN)
          reqP.pickupLocation stC8.trips cfgN stubAvail v).2), m ≤ a) := by
  have happ := spec_c8_earliest_available reqP stC8 cfgN stubAvail 0 12
    routeDirect600 (some (-1740000)) (by decide) (by decide) (by decide)
  exact ⟨happ.1, happ.2.2⟩

/-- C8 counterexample: in the same scenario the claim's two-source
estimate rule (busy vehicles and prior-trip-infeasible vehicles only)
collects NO estimate — the only vehicle passes its prior-trip check and
fails only the next-trip gap check — so the claim predicts a rejection
carrying no earliestAvailableTime, while the code returns one (the
arrival time −1740000, without buffer). -/
theorem spec_c8_counterexample :
    (findBestMatch reqP stC8 cfgN stubAvail 0).1 =
      MatchResult.rejected (noVehicleReason (some (-1740000)))
        (some (-1740000)) ∧
    stC8.vehicles.filterMap (fun v =>
      specC8Estimate reqP.requestedPickupTime
        (newTripEndMs reqP.requestedPickupTime routeDirect600.duration cfgN)
        reqP.pickupLocation stC8.trips cfgN stubAvail v) = [] ∧
    (some (-1740000) : Option Int) ≠ none :=
  ⟨by decide, by decide, by decide⟩

end Tadia
